import Mathlib

/-!
# Verification of the conflict-free replicated document synchronization core

A shallow embedding, in Lean 4, of the CRDT-adapter subsystem of the
repository (the `observables` package: `AutomergeModelDB`, `AutomergeMap`,
`AutomergeList`, `AutomergeString`, the `combine` byte concatenator and the
`createLock` mutual-exclusion gate), together with proofs and refutations of
the frozen specification claims.

Conventions of the embedding:
* JavaScript runtime values stored in the replicated tree are modelled by
  `JSVal` (booleans, integers, strings, null); `Option JSVal` models a value
  that may be `undefined` (`none` = JS `undefined`).
* A JavaScript object used as a dictionary is modelled by an association
  list `List (String × Option JSVal)`: a key assigned `undefined` stays
  present (it is still enumerated by `Object.keys`), which is exactly the
  behaviour of `selections[key] = undefined` in the source.
* Fallible operations return an explicit `threw` flag (or an error branch)
  instead of raising; the state component returned alongside shows exactly
  what was (not) mutated before the throw.
-/

/-- A JavaScript primitive value as stored by the map/list adapters. -/
inductive JSVal where
  | vNull : JSVal
  | vBool : Bool → JSVal
  | vNum : Int → JSVal
  | vStr : String → JSVal
deriving DecidableEq, Repr

/-- JavaScript truthiness of a defined value: `null`, `false`, `0` and the
empty string are falsy, everything else is truthy. -/
def JSVal.truthy : JSVal → Bool
  | .vNull => false
  | .vBool b => b
  | .vNum n => n != 0
  | .vStr s => s != ""

/-- JavaScript truthiness of a possibly-`undefined` value: `undefined` is
falsy. -/
def truthyOpt : Option JSVal → Bool
  | none => false
  | some v => v.truthy

/-- The JS strict-equality `===` on stored primitive values; this is the
default `itemCmp` of the source (`Private.itemCmp` returns
`first === second`). -/
def jsEq (a b : JSVal) : Bool := a == b

namespace AutomergeMap

/-- The backing object `amModelDB.selections` of `AutomergeMap`
(src/packages/observables/src/automergemap.ts): a JS object, i.e. an
association list from keys to possibly-`undefined` values.  A key that was
assigned `undefined` remains enumerable. -/
def MapSt := List (String × Option JSVal)

instance : DecidableEq MapSt := inferInstanceAs (DecidableEq (List _))

/-- Property read `selections[key]`: `undefined` when the key is absent or
was assigned `undefined`. -/
def objGet (m : MapSt) (k : String) : Option JSVal :=
  match m.find? (fun kv => kv.1 == k) with
  | none => none
  | some kv => kv.2

/-- Property write `selections[key] = v`: replaces the value in place if the
key is present (keeping enumeration order), appends otherwise. -/
def objAssign (m : MapSt) (k : String) (v : Option JSVal) : MapSt :=
  match m with
  | [] => [(k, v)]
  | kv :: rest =>
    if kv.1 == k then (k, v) :: rest else kv :: objAssign rest k v

/-- The changed-event payload `IObservableMap.IChangedArgs` emitted on the
map's `changed` signal. -/
structure MEvent where
  mtype : String
  key : String
  oldValue : Option JSVal
  newValue : Option JSVal
deriving DecidableEq, Repr

/-- Result of `AutomergeMap.set`: either it threw, or it returned the old
value. -/
inductive SetResult where
  | threw : String → SetResult
  | ret : Option JSVal → SetResult
deriving DecidableEq, Repr

/-- `AutomergeMap.set(key, value)` (automergemap.ts lines 100-118):
reads `oldVal`, throws if `value` is `undefined`, bails returning `oldVal`
if `oldVal !== undefined && itemCmp(oldVal, value)`, otherwise assigns and
emits one event whose type is `'change'` when `oldVal` is truthy and
`'add'` otherwise.  Returns (state after, emitted events, result). -/
def set (m : MapSt) (key : String) (value : Option JSVal)
    (itemCmp : JSVal → JSVal → Bool) :
    MapSt × List MEvent × SetResult :=
  let oldVal := objGet m key
  match value with
  | none => (m, [], .threw "Cannot set an undefined value, use remove")
  | some v =>
    match oldVal with
    | some ov =>
      if itemCmp ov v then
        (m, [], .ret oldVal)
      else
        (objAssign m key (some v),
         [⟨if truthyOpt oldVal then "change" else "add", key, oldVal, some v⟩],
         .ret oldVal)
    | none =>
      (objAssign m key (some v),
       [⟨if truthyOpt oldVal then "change" else "add", key, oldVal, some v⟩],
       .ret oldVal)

/-- `AutomergeMap.get(key)` (automergemap.ts lines 127-129). -/
def get (m : MapSt) (key : String) : Option JSVal := objGet m key

/-- `AutomergeMap.has(key)` (automergemap.ts lines 138-140):
`selections[key] ? true : false` — a truthiness test, not a presence
test. -/
def has (m : MapSt) (key : String) : Bool := truthyOpt (objGet m key)

/-- `AutomergeMap.keys()` (automergemap.ts lines 147-158):
`Object.keys(selections)` — includes keys whose value is `undefined`. -/
def keys (m : MapSt) : List String := m.map Prod.fst

/-- `AutomergeMap.delete(key)` (automergemap.ts lines 189-202).  The source
reads `const removed = (selections[key] = undefined)`: the value of the
assignment expression is `undefined`, so `removed` is always falsy and the
`changed.emit` branch never runs.  The key itself stays enumerable with
value `undefined`. -/
def del (m : MapSt) (key : String) : MapSt × List MEvent × Option JSVal :=
  let oldVal := objGet m key
  let m' := objAssign m key none
  let removed : Option JSVal := none
  let events := if truthyOpt removed then
      [⟨"remove", key, oldVal, none⟩]
    else []
  (m', events, oldVal)

/-- Helper for `clear`: delete each key of `keyList` in order, collecting
emitted events. -/
def delAll (m : MapSt) (keyList : List String) : MapSt × List MEvent :=
  match keyList with
  | [] => (m, [])
  | k :: rest =>
    let r := del m k
    let r' := delAll r.1 rest
    (r'.1, r.2.1 ++ r'.2)

/-- `AutomergeMap.clear()` (automergemap.ts lines 207-213): iterates over
`this.keys()` and calls `this.delete` on each. -/
def clear (m : MapSt) : MapSt × List MEvent :=
  delAll m (keys m)

end AutomergeMap

namespace AutomergeList

/-- The visible state an `AutomergeList` operation works on
(src/unnamed/part_001).  `content` models `amDocPath(modelDB.amDoc, path)`
(the nested-path lookup of the list's region in the shared tree, modelled
from the spec's PathAddressing contract: `none` when the path is unset).
`inited` models the document's is-initialized flag guarding
`waitOnAmDocInit` (modelled from the spec: mutations issued before the
initial remote sync completes are queued, so they have no immediate
effect).  `lock` models the `createLock` gate closure variable of the
owning model (`true` = free). -/
structure ListSt (T : Type) where
  content : Option (List T)
  inited : Bool
  lock : Bool
deriving DecidableEq, Repr

/-- The changed-event payload `IObservableList.IChangedArgs` emitted on the
list's `changed` signal.  Value lists are lists of possibly-`undefined`
values. -/
structure LEvent (T : Type) where
  ltype : String
  oldIndex : Int
  newIndex : Int
  oldValues : List (Option T)
  newValues : List (Option T)
deriving DecidableEq, Repr

/-- The full observable outcome of one list operation: the state after,
the events emitted on `changed`, the `Automerge.change` invocations
performed (each produces one outbound change-set), whether the operation
threw, and its return value (where it has one). -/
structure LRes (T : Type) where
  st : ListSt T
  events : List (LEvent T)
  changeMsgs : List String
  threw : Bool
  ret : Option T
deriving DecidableEq, Repr

/-- JavaScript array indexing `xs[index]`: `undefined` for a negative or
out-of-bounds index. -/
def jsIndex {T : Type} (xs : List T) (index : Int) : Option T :=
  if 0 ≤ index ∧ index < (xs.length : Int) then xs.get? index.toNat
  else none

/-- `ArrayExt.removeAt` of `@lumino/algorithm`, used by
`AutomergeList.remove`: a negative index is taken as an offset from the end
of the array; an index out of range after that adjustment removes nothing
and returns `undefined`. -/
def removeAt {T : Type} (xs : List T) (index : Int) : List T × Option T :=
  let n : Int := xs.length
  let i := if index < 0 then index + n else index
  if 0 ≤ i ∧ i < n then
    (xs.take i.toNat ++ xs.drop (i.toNat + 1), xs.get? i.toNat)
  else (xs, none)

/-- `AutomergeList.set(index, value)` (src/unnamed/part_001 lines 156-185):
under `waitOnAmDocInit` and `withLock`, reads the old value, throws on an
`undefined` value, bails with no event and no mutation when
`itemCmp(oldValue, value)` holds, else mutates inside `Automerge.change`
and emits one `set` event. -/
def set {T : Type} (st : ListSt T) (itemCmp : Option T → T → Bool)
    (index : Int) (value : Option T) : LRes T :=
  if st.inited then
    if st.lock then
      match st.content with
      | none => ⟨st, [], [], true, none⟩
      | some xs =>
        let oldValue := jsIndex xs index
        match value with
        | none => ⟨st, [], [], true, none⟩
        | some v =>
          if itemCmp oldValue v then ⟨st, [], [], false, none⟩
          else
            if 0 ≤ index ∧ index < (xs.length : Int) then
              ⟨{ st with content := some (xs.set index.toNat v) },
               [⟨"set", index, index, [oldValue], [some v]⟩],
               ["list set"], false, none⟩
            else ⟨st, [], [], true, none⟩
    else ⟨st, [], [], false, none⟩
  else ⟨st, [], [], false, none⟩

/-- `AutomergeList.remove(index)` (src/unnamed/part_001 lines 314-338):
under `waitOnAmDocInit` and `withLock`, removes via `ArrayExt.removeAt`
inside `Automerge.change`; when `removeAt` yielded `undefined` it returns
`undefined` without emitting, otherwise it emits one `remove` event and
returns the removed value. -/
def remove {T : Type} (st : ListSt T) (index : Int) : LRes T :=
  if st.inited then
    if st.lock then
      match st.content with
      | none => ⟨st, [], [], true, none⟩
      | some xs =>
        let r := removeAt xs index
        let st' := { st with content := some r.1 }
        match r.2 with
        | none => ⟨st', [], ["list remove"], false, none⟩
        | some v =>
          ⟨st', [⟨"remove", index, -1, [some v], []⟩],
           ["list remove"], false, some v⟩
    else ⟨st, [], [], false, none⟩
  else ⟨st, [], [], false, none⟩

/-- `AutomergeList.clear()` (src/unnamed/part_001 lines 349-371): guarded
by the JS truthiness of `amDocPath(amDoc, path)` — an existing array is
truthy even when empty, only an unset path is falsy.  Under the guard it
snapshots the contents, replaces the region with a fresh empty array
inside `Automerge.change`, and emits one `remove` event carrying the
snapshot as `oldValues`. -/
def clear {T : Type} (st : ListSt T) : LRes T :=
  match st.content with
  | none => ⟨st, [], [], false, none⟩
  | some xs =>
    if st.inited then
      if st.lock then
        ⟨{ st with content := some [] },
         [⟨"remove", 0, 0, xs.map some, []⟩],
         ["list clear"], false, none⟩
      else ⟨st, [], [], false, none⟩
    else ⟨st, [], [], false, none⟩

end AutomergeList

namespace AutomergeString

/-- The state of an `AutomergeString`: the text sequence at the string's
region of the document (`modelDB.amModel.text`,
src/packages/observables/src/ammodeldb.ts, `AutomergeString`). -/
structure StrSt where
  text : List Char
deriving DecidableEq, Repr

/-- The changed-event payload `IObservableString.IChangedArgs`.  The TS
field `end` is spelled `stop` here because `end` is a Lean keyword. -/
structure SEvent where
  stype : String
  start : Nat
  stop : Nat
  value : List Char
deriving DecidableEq, Repr

/-- `AutomergeString.insert(index, text)` (ammodeldb.ts lines 673-683):
`doc.text.insertAt(index, ...text)` inside `Automerge.change` (defined for
`index ≤ text.length`), then emit
`{type:'insert', start:index, end:index+text.length, value:text}`. -/
def insert (st : StrSt) (index : Nat) (t : List Char) : StrSt × List SEvent :=
  (⟨st.text.take index ++ t ++ st.text.drop index⟩,
   [⟨"insert", index, index + t.length, t⟩])

/-- `AutomergeString.remove(start, end)` (ammodeldb.ts lines 692-703):
snapshots `oldValue = text.slice(start, end)` from the PRE-mutation text,
then `doc.text.deleteAt(start, end - start)` inside `Automerge.change`,
then emits `{type:'remove', start, end, value: oldValue}`. -/
def remove (st : StrSt) (start stop : Nat) : StrSt × List SEvent :=
  let oldValue := (st.text.drop start).take (stop - start)
  (⟨st.text.take start ++ st.text.drop (start + (stop - start))⟩,
   [⟨"remove", start, stop, oldValue⟩])

end AutomergeString

/-- `Uint8Array.prototype.set(src, offset)` on a typed array: overwrite the
bytes of `dst` starting at `offset` with the bytes of `src` (the caller
guarantees `offset + src.length ≤ dst.length`). -/
def setBytes (dst : List Nat) (src : List Nat) (offset : Nat) : List Nat :=
  dst.take offset ++ src ++ dst.drop (offset + src.length)

/-- `combine(changes)` (ammodeldb.ts lines 74-88): sums the lengths of all
change fragments, allocates a zero-filled array of the total length, and
copies each fragment in input order at the running offset. -/
def combine (changes : List (List Nat)) : List Nat :=
  let length := changes.foldl (fun acc item => acc + item.length) 0
  let start : List Nat × Nat := (List.replicate length 0, 0)
  (changes.foldl
    (fun st change => (setBytes st.1 change st.2, st.2 + change.length))
    start).1

namespace LockGate

/-- A program interacting with the gate returned by `createLock`
(ammodeldb.ts lines 140-154).  `act n` is a primitive observable effect,
`failing` throws, `seq` sequences (a throw propagates), `withLock a b`
calls the gate closure with action `a` and else-action `b`, and
`withLockNoElse a` calls it with `b === undefined` — nesting a gate call
inside a running action models the reentrant call the gate exists to
suppress. -/
inductive LockProg where
  | act : Nat → LockProg
  | failing : LockProg
  | seq : LockProg → LockProg → LockProg
  | withLock : LockProg → LockProg → LockProg
  | withLockNoElse : LockProg → LockProg

/-- The outcome of running a `LockProg`: the trace of executed primitive
effects, the gate's closure variable `lock` afterwards, and whether an
exception is propagating. -/
structure ExecRes where
  trace : List Nat
  lock : Bool
  threw : Bool
deriving DecidableEq, Repr

/-- Interpreter for `LockProg` against the `createLock` closure state
(`lock = true` means the gate is free, the closure's initial state).  The
gate: if `lock` then `lock = false; try a() finally lock = true` — the
`finally` restores the gate even when the action throws, and the throw
propagates; else if the else-action is defined it runs, otherwise
nothing. -/
def exec : LockProg → Bool → ExecRes
  | .act n, l => ⟨[n], l, false⟩
  | .failing, l => ⟨[], l, true⟩
  | .seq p q, l =>
    let r := exec p l
    if r.threw then r
    else
      let r2 := exec q r.lock
      ⟨r.trace ++ r2.trace, r2.lock, r2.threw⟩
  | .withLock a b, l =>
    if l then
      let r := exec a false
      ⟨r.trace, true, r.threw⟩
    else exec b l
  | .withLockNoElse a, l =>
    if l then
      let r := exec a false
      ⟨r.trace, true, r.threw⟩
    else ⟨[], l, false⟩

/-- Running any program with the gate held leaves the gate held: the
closure variable is only ever reset to `true` by a gate call that first
found it `true`. -/
theorem exec_lock_false (p : LockProg) : (exec p false).lock = false := by
  induction p with
  | act n => rfl
  | failing => rfl
  | seq a b iha ihb =>
    simp only [exec]
    by_cases h : (exec a false).threw
    · simpa [h] using iha
    · simp only [h, if_false]
      rw [iha]
      simpa using ihb
  | withLock a b iha ihb =>
    simpa [exec] using ihb
  | withLockNoElse a iha =>
    simp [exec]

end LockGate

/-- Look a key up in a JS object modelled as an association list
(`undefined` when absent). -/
def assocGet {A : Type} (m : List (String × A)) (k : String) : Option A :=
  match m.find? (fun kv => kv.1 == k) with
  | none => none
  | some kv => some kv.2

/-- Assign a key in a JS object modelled as an association list. -/
def assocSet {A : Type} (m : List (String × A)) (k : String) (v : A) :
    List (String × A) :=
  match m with
  | [] => [(k, v)]
  | kv :: rest =>
    if kv.1 == k then (k, v) :: rest else kv :: assocSet rest k v

namespace AutomergeModelDB

/-- A value at a top-level key of the Automerge document tree: either a
primitive, or a one-level object such as the `users` registry (uuid to
flag).  This covers everything the remote-message merge path of
`AutomergeModelDB` touches. -/
inductive DVal where
  | prim : JSVal → DVal
  | obj : List (String × JSVal) → DVal
deriving DecidableEq, Repr

/-- JS truthiness of a `DVal`: any object (even empty) is truthy. -/
def DVal.truthy : DVal → Bool
  | .prim v => v.truthy
  | .obj _ => true

/-- Truthiness of `tree[k]` (`undefined` for an absent key is falsy). -/
def docTruthy (t : List (String × DVal)) (k : String) : Bool :=
  match assocGet t k with
  | none => false
  | some v => v.truthy

/-- Modelled from the spec: an Automerge change-set — missing here because
the Automerge library is the external black-box CRDT the spec specifies
only by contract (§4.1, §8).  It is "an opaque, serializable delta
(binary-encoded) capturing one atomic local change" stamped with "a
monotonically-traceable causal marker" (`csId`); its payload is the set of
top-level assignments it performs. -/
structure ChangeSet where
  csId : Nat
  ops : List (String × DVal)
deriving DecidableEq, Repr

/-- The replicated document state: the tree plus the causal markers of the
change-sets already merged into it. -/
structure AmDocSt where
  tree : List (String × DVal)
  seen : List Nat
deriving DecidableEq, Repr

/-- Modelled from the spec: `Automerge.applyChanges` — the external
library's merge, specified by "merges from two actors are commutative and
idempotent" and "re-applying an already-seen change-set is a no-op diff"
(§3, §4.1).  An unseen change-set applies its delta and records its causal
marker; an already-seen one leaves the document untouched.  The boolean is
whether a non-empty diff resulted. -/
def applyChanges (doc : AmDocSt) (cs : ChangeSet) : AmDocSt × Bool :=
  if cs.csId ∈ doc.seen then (doc, false)
  else
    (⟨cs.ops.foldl (fun t op => assocSet t op.1 op.2) doc.tree,
      cs.csId :: doc.seen⟩,
     true)

/-- `Automerge.change(doc, msg, mutator)`: one local atomic change,
running the mutator against the tree. -/
def amChange (doc : AmDocSt)
    (f : List (String × DVal) → List (String × DVal)) : AmDocSt :=
  { doc with tree := f doc.tree }

/-- Truthiness of `amDoc['users'][actorId]`: indexing a primitive yields
`undefined` (falsy), and an absent entry is falsy. -/
def userEntryTruthy (t : List (String × DVal)) (actorId : String) : Bool :=
  match assocGet t "users" with
  | some (.obj kvs) =>
    match assocGet kvs actorId with
    | some v => v.truthy
    | none => false
  | _ => false

/-- The mutator `doc => { doc['users'][actorId] = true }`: updates the
entry when `users` is an object; property assignment on a primitive is a
silent no-op. -/
def setUserKey (t : List (String × DVal)) (actorId : String) :
    List (String × DVal) :=
  match assocGet t "users" with
  | some (.obj kvs) => assocSet t "users" (.obj (assocSet kvs actorId (.vBool true)))
  | _ => t

/-- `Object.keys(amDoc['users'])`: the keys of the users object
(`Object.keys` of a primitive is empty). -/
def usersKeys (t : List (String × DVal)) : List String :=
  match assocGet t "users" with
  | some (.obj kvs) => kvs.map Prod.fst
  | _ => []

/-- The loop `Object.keys(users).map(uuid => if absent, register a new
Collaborator)`: append every uuid not yet registered, in key order. -/
def addCollaborators (collab : List String) (uuids : List String) :
    List String :=
  uuids.foldl (fun c u => if u ∈ c then c else c ++ [u]) collab

/-- The replica-side state the remote-message listener manipulates: the
document, the registered collaborator uuids, the `isInitialized` flag, the
gate, the constant session actor id `this._actorId`, and the Automerge
frontend actor (set from `ownerId` via `setActorId`, kept as the raw
value). -/
structure ModelSt where
  amDoc : AmDocSt
  collaborators : List String
  inited : Bool
  lock : Bool
  actorId : String
  frontendActor : Option DVal
deriving DecidableEq, Repr

/-- Step `if (!this._amDoc['users']) { amDoc = Automerge.change(..., doc =>
{ doc['users'] = {} }) }` of the message listener. -/
def ensureUsers (d : AmDocSt) : AmDocSt :=
  if docTruthy d.tree "users" then d
  else amChange d (fun t => assocSet t "users" (.obj []))

/-- Step `if (!this._amDoc['users'][this._actorId]) { amDoc =
Automerge.change(..., doc => { doc['users'][actorId] = true }) }` of the
message listener. -/
def ensureUserEntry (d : AmDocSt) (actorId : String) : AmDocSt :=
  if userEntryTruthy d.tree actorId then d
  else amChange d (fun t => setUserKey t actorId)

/-- The WebSocket `message` listener of the `AutomergeModelDB` constructor
(ammodeldb.ts lines 229-276), for a frame decoding to change-set `cs`:
under the `createLock` gate (no else-action: a reentrant call no-ops), it
optionally re-points the frontend actor at `ownerId`, merges via
`Automerge.applyChanges`, ensures `users` exists and `users[actorId]` is
set (each via a local `Automerge.change`), registers a collaborator for
every user uuid not yet known, and flips `isInitialized`.  Returns the new
state and whether the merge produced a non-empty diff. -/
def onMessage (st : ModelSt) (cs : ChangeSet) : ModelSt × Bool :=
  if st.lock then
    let actor' := if docTruthy st.amDoc.tree "ownerId" then
        assocGet st.amDoc.tree "ownerId"
      else st.frontendActor
    let p := applyChanges st.amDoc cs
    let d3 := ensureUserEntry (ensureUsers p.1) st.actorId
    let collab' := addCollaborators st.collaborators (usersKeys d3.tree)
    ({ amDoc := d3, collaborators := collab', inited := true,
       lock := true, actorId := st.actorId, frontendActor := actor' },
     p.2)
  else (st, false)

end AutomergeModelDB

/-! ## Supporting lemmas -/

theorem AutomergeMap.objGet_objAssign (m : AutomergeMap.MapSt) (k : String)
    (v : Option JSVal) :
    AutomergeMap.objGet (AutomergeMap.objAssign m k v) k = v := by
  induction m with
  | nil => simp [AutomergeMap.objAssign, AutomergeMap.objGet]
  | cons kv rest ih =>
    by_cases h : kv.1 = k
    · simp [AutomergeMap.objAssign, AutomergeMap.objGet, h]
    · simpa [AutomergeMap.objAssign, AutomergeMap.objGet, h] using ih

theorem AutomergeMap.delAll_events (m : AutomergeMap.MapSt)
    (ks : List String) : (AutomergeMap.delAll m ks).2 = [] := by
  induction ks generalizing m with
  | nil => simp [AutomergeMap.delAll]
  | cons k rest ih =>
    simp [AutomergeMap.delAll, AutomergeMap.del, truthyOpt, ih]

/-! ## Claim theorems -/

/-- C3: the claim says `map.clear()` emits one `remove` event per deleted
key and afterwards the map has no keys.  The code does neither: `delete`
binds `removed` to the value of the assignment `selections[key] =
undefined`, which is always `undefined`, so the emit branch is dead and the
key stays enumerable.  This theorem evaluates the code: `clear` never
emits any event, and at the failing input (a map holding one key `"a"`
with value `1`) it emits zero events and leaves `"a"` enumerable with
value `undefined`. -/
theorem automergeMap_clear_bug :
    (∀ m : AutomergeMap.MapSt, (AutomergeMap.clear m).2 = []) ∧
    AutomergeMap.clear [("a", some (JSVal.vNum 1))] = ([("a", none)], []) ∧
    AutomergeMap.keys (AutomergeMap.clear [("a", some (JSVal.vNum 1))]).1 =
      ["a"] :=
  ⟨fun m => AutomergeMap.delAll_events m (AutomergeMap.keys m),
   by decide, by decide⟩

/-- C4: `map.set(key, undefined)` throws synchronously ("Cannot set an
undefined value, use remove") with no mutation and no event; if the key
already has a (defined) value and `itemCmp(oldValue, newValue)` is true,
`set` is a no-op returning the old value with no mutation and no event;
otherwise it stores the value and emits exactly one changed event. -/
theorem automergeMap_set_spec :
    (∀ (m : AutomergeMap.MapSt) (k : String)
       (cmp : JSVal → JSVal → Bool),
      AutomergeMap.set m k none cmp =
        (m, [], .threw "Cannot set an undefined value, use remove")) ∧
    (∀ (m : AutomergeMap.MapSt) (k : String) (v ov : JSVal)
       (cmp : JSVal → JSVal → Bool),
      AutomergeMap.get m k = some ov → cmp ov v = true →
      AutomergeMap.set m k (some v) cmp = (m, [], .ret (some ov))) ∧
    (∀ (m : AutomergeMap.MapSt) (k : String) (v : JSVal)
       (cmp : JSVal → JSVal → Bool),
      (∀ ov, AutomergeMap.get m k = some ov → cmp ov v = false) →
      AutomergeMap.get (AutomergeMap.set m k (some v) cmp).1 k = some v ∧
      (AutomergeMap.set m k (some v) cmp).2.1.length = 1 ∧
      (AutomergeMap.set m k (some v) cmp).2.2 =
        .ret (AutomergeMap.get m k)) := by
  refine ⟨fun m k cmp => rfl, ?_, ?_⟩
  · intro m k v ov cmp hget hcmp
    simp only [AutomergeMap.set, AutomergeMap.get] at *
    rw [hget]
    simp [hcmp]
  · intro m k v cmp hcmp
    simp only [AutomergeMap.set, AutomergeMap.get] at *
    cases hov : AutomergeMap.objGet m k with
    | none => simp [AutomergeMap.objGet_objAssign]
    | some ov => simp [hcmp ov hov, AutomergeMap.objGet_objAssign]

/-- C4 witness: instantiation at a one-entry map with the default
comparator. -/
theorem automergeMap_set_spec_witness :
    AutomergeMap.set [("a", some (JSVal.vNum 1))] "a"
      (some (JSVal.vNum 1)) jsEq =
      ([("a", some (JSVal.vNum 1))], [], .ret (some (JSVal.vNum 1))) ∧
    AutomergeMap.set [] "b" none jsEq =
      ([], [], .threw "Cannot set an undefined value, use remove") := by
  constructor
  · exact automergeMap_set_spec.2.1 [("a", some (JSVal.vNum 1))] "a"
      (JSVal.vNum 1) (JSVal.vNum 1) jsEq (by decide) (by decide)
  · exact automergeMap_set_spec.1 [] "b" jsEq

/-- C10 (implicit): `map.has(key)` is a truthiness test of the stored
value, not a presence test: it returns true iff `selections[key]` is
truthy; in particular after storing a falsy representable value such as
`0`, `has` returns false while `get` returns the stored value. -/
theorem automergeMap_has_truthy :
    (∀ (m : AutomergeMap.MapSt) (k : String),
      AutomergeMap.has m k = truthyOpt (AutomergeMap.get m k)) ∧
    (∀ (m : AutomergeMap.MapSt) (k : String) (v : JSVal),
      v.truthy = false →
      AutomergeMap.has (AutomergeMap.set m k (some v) jsEq).1 k = false ∧
      AutomergeMap.get (AutomergeMap.set m k (some v) jsEq).1 k = some v) := by
  refine ⟨fun m k => rfl, ?_⟩
  intro m k v hv
  have hget : AutomergeMap.get (AutomergeMap.set m k (some v) jsEq).1 k = some v := by
    simp only [AutomergeMap.set, AutomergeMap.get]
    cases hov : AutomergeMap.objGet m k with
    | none => simp [AutomergeMap.objGet_objAssign]
    | some ov =>
      by_cases hc : jsEq ov v
      · have : ov = v := by simpa [jsEq] using hc
        simp [hov, hc, this, jsEq]
      · simp [hov, hc, AutomergeMap.objGet_objAssign]
  refine ⟨?_, hget⟩
  show truthyOpt (AutomergeMap.objGet _ k) = false
  have : AutomergeMap.objGet (AutomergeMap.set m k (some v) jsEq).1 k = some v := hget
  rw [this]
  simpa [truthyOpt] using hv

/-- C10 witness: storing `0` makes `has` false while `get` returns `0`. -/
theorem automergeMap_has_truthy_witness :
    JSVal.truthy (JSVal.vNum 0) = false ∧
    AutomergeMap.has (AutomergeMap.set [] "a" (some (JSVal.vNum 0)) jsEq).1
      "a" = false ∧
    AutomergeMap.get (AutomergeMap.set [] "a" (some (JSVal.vNum 0)) jsEq).1
      "a" = some (JSVal.vNum 0) :=
  ⟨by decide,
   (automergeMap_has_truthy.2 [] "a" (JSVal.vNum 0) (by decide)).1,
   (automergeMap_has_truthy.2 [] "a" (JSVal.vNum 0) (by decide)).2⟩

/-- C2 counterexample: on an initialized document whose list path exists
and holds an empty array, `clear()` emits a `remove` event — the guard
`if (amDocPath(amDoc, path))` tests JS truthiness, and an empty array is
truthy, so the claim's "clear on an empty list emits no event" is false. -/
theorem automergeList_clear_empty_emits :
    (AutomergeList.clear (T := Nat) ⟨some [], true, true⟩).events =
      [⟨"remove", 0, 0, [], []⟩] := by decide

/-- C2 (amended): `clear()` on a list whose path is unset in the document
is a complete no-op (no event, no mutation); on a list whose path exists
— including an existing empty list — it emits exactly one `remove` event
whose `oldValues` are the full prior contents snapshotted before the
mutation (empty for an empty list) and leaves the list empty. -/
theorem automergeList_clear_spec :
    (∀ (T : Type) (st : AutomergeList.ListSt T), st.content = none →
      AutomergeList.clear st = ⟨st, [], [], false, none⟩) ∧
    (∀ (T : Type) (st : AutomergeList.ListSt T) (xs : List T),
      st.content = some xs → st.inited = true → st.lock = true →
      AutomergeList.clear st =
        ⟨{ st with content := some [] },
         [⟨"remove", 0, 0, xs.map some, []⟩],
         ["list clear"], false, none⟩) := by
  constructor
  · intro T st h
    simp [AutomergeList.clear, h]
  · intro T st xs hc hi hl
    simp [AutomergeList.clear, hc, hi, hl]

/-- C2 witness: the amended statement at the unset path and at a
two-element list. -/
theorem automergeList_clear_spec_witness :
    AutomergeList.clear (T := Nat) ⟨none, true, true⟩ =
      ⟨⟨none, true, true⟩, [], [], false, none⟩ ∧
    AutomergeList.clear (T := Nat) ⟨some [4, 7], true, true⟩ =
      ⟨⟨some [], true, true⟩,
       [⟨"remove", 0, 0, [some 4, some 7], []⟩],
       ["list clear"], false, none⟩ := by
  constructor
  · exact automergeList_clear_spec.1 Nat ⟨none, true, true⟩ rfl
  · exact automergeList_clear_spec.2 Nat ⟨some [4, 7], true, true⟩ [4, 7]
      rfl rfl rfl

/-- C6: on an initialized document with the gate free, `list.set(i, v)`
with `i` in bounds and `itemCmp(list.get(i), v)` true is a complete no-op:
no changed event, no mutation of the document tree, no outbound
change-set (no `Automerge.change` invocation). -/
theorem automergeList_set_noop :
    ∀ (T : Type) (st : AutomergeList.ListSt T) (xs : List T)
      (cmp : Option T → T → Bool) (i : Int) (v : T),
      st.content = some xs → st.inited = true → st.lock = true →
      0 ≤ i → i < (xs.length : Int) →
      cmp (AutomergeList.jsIndex xs i) v = true →
      AutomergeList.set st cmp i (some v) = ⟨st, [], [], false, none⟩ := by
  intro T st xs cmp i v hc hi hl _ _ hcmp
  simp [AutomergeList.set, hc, hi, hl, hcmp]

/-- C6 witness: the default comparator at index 0 of a singleton list. -/
theorem automergeList_set_noop_witness :
    AutomergeList.set (T := Nat) ⟨some [5], true, true⟩
      (fun a b => a == some b) 0 (some 5) =
      ⟨⟨some [5], true, true⟩, [], [], false, none⟩ :=
  automergeList_set_noop Nat ⟨some [5], true, true⟩ [5]
    (fun a b => a == some b) 0 5 rfl rfl rfl (by decide) (by decide)
    (by decide)

/-- C7 counterexample: `remove(-1)` on the one-element list `[5]` — an
index outside `[0, length)` — removes the last element, returns it and
emits a `remove` event: `ArrayExt.removeAt` of `@lumino/algorithm`
interprets a negative index as an offset from the end, refuting the
claim's "returns undefined, emits no event, leaves the list unchanged"
for every index outside `[0, length)`. -/
theorem automergeList_remove_neg_removes :
    AutomergeList.remove (T := Nat) ⟨some [5], true, true⟩ (-1) =
      ⟨⟨some [], true, true⟩, [⟨"remove", -1, -1, [some 5], []⟩],
       ["list remove"], false, some 5⟩ := by decide

/-- C7 (amended): on an initialized document with the gate free,
`list.remove(index)` with `index ≥ length` or `index < -length` (the
indices `ArrayExt.removeAt` treats as out of range, negative indices
counting from the end) returns `undefined`, emits no changed event, does
not throw, and leaves the list contents unchanged. -/
theorem automergeList_remove_oob :
    ∀ (T : Type) (st : AutomergeList.ListSt T) (xs : List T) (i : Int),
      st.content = some xs → st.inited = true → st.lock = true →
      ((xs.length : Int) ≤ i ∨ i < -(xs.length : Int)) →
      AutomergeList.remove st i = ⟨st, [], ["list remove"], false, none⟩ := by
  intro T st xs i hc hi hl hoob
  have hr : AutomergeList.removeAt xs i = (xs, none) := by
    simp only [AutomergeList.removeAt]
    rcases hoob with h | h
    · have hnneg : ¬ i < 0 := by omega
      simp only [hnneg, if_false]
      rw [if_neg]
      omega
    · have hneg : i < 0 := by omega
      simp only [hneg, if_true]
      rw [if_neg]
      omega
  cases st with
  | mk c ini lk =>
    simp only at hc hi hl
    subst hc hi hl
    simp [AutomergeList.remove, hr]

/-- C7 witness: the amended statement at index 3 of the one-element list
`[5]`. -/
theorem automergeList_remove_oob_witness :
    AutomergeList.remove (T := Nat) ⟨some [5], true, true⟩ 3 =
      ⟨⟨some [5], true, true⟩, [], ["list remove"], false, none⟩ :=
  automergeList_remove_oob Nat ⟨some [5], true, true⟩ [5] 3 rfl rfl rfl
    (by decide)

/-- The spliced text keeps its prefix: taking `i` of `s` with `t` spliced
at `i` gives back the first `i` characters of `s`. -/
theorem automergeString_splice_take (s t : List Char) (i : Nat)
    (h : i ≤ s.length) :
    (s.take i ++ t ++ s.drop i).take i = s.take i := by
  have h1 : (s.take i).length = i := by
    simp [List.length_take, Nat.min_eq_left h]
  rw [List.append_assoc, List.take_append_of_le_length (le_of_eq h1.symm),
    List.take_take]
  simp

theorem automergeString_splice_drop (s t : List Char) (i : Nat)
    (h : i ≤ s.length) :
    (s.take i ++ t ++ s.drop i).drop (i + t.length) = s.drop i := by
  have h1 : (s.take i ++ t).length = i + t.length := by
    simp [List.length_take, Nat.min_eq_left h]
  rw [List.append_assoc,
    show s.take i ++ (t ++ s.drop i) = (s.take i ++ t) ++ s.drop i by
      simp [List.append_assoc],
    ← h1, List.drop_left]

theorem automergeString_splice_slice (s t : List Char) (i : Nat)
    (h : i ≤ s.length) :
    ((s.take i ++ t ++ s.drop i).drop i).take t.length = t := by
  have h1 : (s.take i).length = i := by
    simp [List.length_take, Nat.min_eq_left h]
  rw [List.append_assoc, List.drop_left' h1]
  exact List.take_left t _

/-- C5: string insert/remove round-trip.  For text `s`, inserted text `t`
and index `i ≤ s.length`: `insert(i, t)` makes the text `s` with `t`
spliced at `i` and emits `{type:'insert', start:i, end:i+|t|, value:t}`;
the subsequent `remove(i, i+|t|)` restores `s` and emits
`{type:'remove', start:i, end:i+|t|, value:t}`, the event value being the
pre-mutation slice `[i, i+|t|)`. -/
theorem automergeString_roundtrip :
    ∀ (s t : List Char) (i : Nat), i ≤ s.length →
      AutomergeString.insert ⟨s⟩ i t =
        (⟨s.take i ++ t ++ s.drop i⟩, [⟨"insert", i, i + t.length, t⟩]) ∧
      AutomergeString.remove ⟨s.take i ++ t ++ s.drop i⟩ i (i + t.length) =
        (⟨s⟩, [⟨"remove", i, i + t.length, t⟩]) := by
  intro s t i h
  refine ⟨rfl, ?_⟩
  have hv := automergeString_splice_slice s t i h
  have htk := automergeString_splice_take s t i h
  have hdp := automergeString_splice_drop s t i h
  simp only [AutomergeString.remove, Nat.add_sub_cancel_left]
  rw [hv, htk, hdp, List.take_append_drop]

/-- C5 witness: the spec's own example — `"hello"`, `insert(5, " world")`,
then `remove(5, 11)`. -/
theorem automergeString_roundtrip_witness :
    AutomergeString.insert ⟨"hello".toList⟩ 5 " world".toList =
      (⟨"hello world".toList⟩, [⟨"insert", 5, 11, " world".toList⟩]) ∧
    AutomergeString.remove ⟨"hello world".toList⟩ 5 11 =
      (⟨"hello".toList⟩, [⟨"remove", 5, 11, " world".toList⟩]) := by
  have h := automergeString_roundtrip "hello".toList " world".toList 5
    (by decide)
  exact ⟨h.1, h.2⟩

theorem combine_length_foldl (cs : List (List Nat)) (n : Nat) :
    cs.foldl (fun acc item => acc + item.length) n =
      n + (cs.map List.length).sum := by
  induction cs generalizing n with
  | nil => simp
  | cons c rest ih => simp [ih, Nat.add_assoc]

theorem combine_foldl (cs : List (List Nat)) (pre : List Nat) :
    (cs.foldl
      (fun st change => (setBytes st.1 change st.2, st.2 + change.length))
      (pre ++ List.replicate ((cs.map List.length).sum) 0, pre.length)).1 =
    pre ++ cs.join := by
  induction cs generalizing pre with
  | nil => simp
  | cons c rest ih =>
    have hset :
        setBytes
          (pre ++ List.replicate (c.length + (rest.map List.length).sum) 0)
          c pre.length =
        (pre ++ c) ++ List.replicate ((rest.map List.length).sum) 0 := by
      simp only [setBytes, List.replicate_add]
      rw [show pre ++ (List.replicate c.length 0 ++
            List.replicate ((rest.map List.length).sum) 0) =
          (pre ++ List.replicate c.length 0) ++
            List.replicate ((rest.map List.length).sum) 0 by
        simp [List.append_assoc]]
      rw [List.drop_left' (by simp), List.take_append_of_le_length (by simp),
        List.take_left]
    simp only [List.foldl_cons, List.map_cons, List.sum_cons]
    rw [hset, show pre.length + c.length = (pre ++ c).length by simp]
    rw [ih (pre ++ c)]
    simp [List.append_assoc]

/-- `combine` produces exactly the concatenation of its input fragments. -/
theorem combine_eq_join (changes : List (List Nat)) :
    combine changes = changes.join := by
  simp only [combine]
  rw [combine_length_foldl changes 0, Nat.zero_add]
  have h := combine_foldl changes []
  simpa using h

theorem combine_join_get (cs : List (List Nat)) :
    ∀ (k : Nat) (c : List Nat), cs.get? k = some c →
    ∀ j, j < c.length →
      cs.join.get? (((cs.take k).map List.length).sum + j) = c.get? j := by
  induction cs with
  | nil => intro k c h; cases h
  | cons d rest ih =>
    intro k c h j hj
    cases k with
    | zero =>
      simp only [List.get?_cons_zero, Option.some.injEq] at h
      subst h
      simpa [List.join] using List.get?_append hj
    | succ k' =>
      simp only [List.get?_cons_succ] at h
      simp only [List.take_succ_cons, List.map_cons, List.sum_cons,
        List.join_cons]
      rw [Nat.add_assoc, List.get?_append_right (by omega),
        Nat.add_sub_cancel_left]
      exact ih k' c h j hj

/-- C9: `combine(changes)` concatenates the change fragments into one
payload: the result's length is the sum of the fragment lengths, and for
every fragment `c` at position `k`, the result's byte at offset
(total length of fragments `0..k-1`) + `j` is `c`'s byte `j`. -/
theorem combine_spec :
    ∀ (changes : List (List Nat)),
      (combine changes).length = (changes.map List.length).sum ∧
      ∀ (k : Nat) (c : List Nat), changes.get? k = some c →
        ∀ j, j < c.length →
          (combine changes).get?
              (((changes.take k).map List.length).sum + j) =
            c.get? j := by
  intro changes
  constructor
  · rw [combine_eq_join]
    exact List.length_join _
  · intro k c h j hj
    rw [combine_eq_join]
    exact combine_join_get changes k c h j hj

/-- C9 witness: `combine [[1,2],[3]]`'s byte at offset 2 is fragment 1's
byte 0. -/
theorem combine_spec_witness :
    [[1, 2], [3]].get? 1 = some [3] ∧ (0 : Nat) < [3].length ∧
    (combine [[1, 2], [3]]).get?
        ((([[1, 2], [3]].take 1).map List.length).sum + 0) =
      [3].get? 0 :=
  ⟨by decide, by decide,
   (combine_spec [[1, 2], [3]]).2 1 [3] (by decide) 0 (by decide)⟩

/-- C8: the `createLock` gate.  With the gate free, a `withLock(a, b)` (or
`withLock(a)`) call runs the action exactly once — the observable trace is
exactly the action's — and never the else-action, and the gate is released
(`lock = true`) after the action returns, including when the action
throws (the throw propagating).  With the gate held, the action does not
run: the else-action runs when defined, otherwise nothing happens.  A
nested gate call issued from inside a running action therefore finds the
gate held: its action is skipped and its else-action runs. -/
theorem createLock_spec :
    (∀ (a b : LockGate.LockProg),
      LockGate.exec (.withLock a b) true =
        ⟨(LockGate.exec a false).trace, true,
         (LockGate.exec a false).threw⟩) ∧
    (∀ (a : LockGate.LockProg),
      LockGate.exec (.withLockNoElse a) true =
        ⟨(LockGate.exec a false).trace, true,
         (LockGate.exec a false).threw⟩) ∧
    (∀ (a b : LockGate.LockProg),
      LockGate.exec (.withLock a b) false = LockGate.exec b false) ∧
    (∀ (a : LockGate.LockProg),
      LockGate.exec (.withLockNoElse a) false = ⟨[], false, false⟩) ∧
    (∀ (a b c : LockGate.LockProg),
      (LockGate.exec a false).threw = false →
      LockGate.exec (.withLockNoElse (.seq a (.withLock b c))) true =
        ⟨(LockGate.exec a false).trace ++ (LockGate.exec c false).trace,
         true, (LockGate.exec c false).threw⟩) := by
  refine ⟨fun a b => rfl, fun a => rfl, fun a b => rfl, fun a => rfl, ?_⟩
  intro a b c h
  have hl := LockGate.exec_lock_false a
  simp [LockGate.exec, h, hl]

/-- C8 witness: a free-gate call whose action performs effect 1 and then
reentrantly calls the gate with action 2 and else-action 3 — the resulting
trace is `[1, 3]` and the gate ends free. -/
theorem createLock_spec_witness :
    (LockGate.exec (.act 1) false).threw = false ∧
    LockGate.exec
        (.withLockNoElse (.seq (.act 1) (.withLock (.act 2) (.act 3))))
        true =
      ⟨[1, 3], true, false⟩ :=
  ⟨rfl, createLock_spec.2.2.2.2 (.act 1) (.act 2) (.act 3) rfl⟩

theorem assocGet_assocSet {A : Type} (m : List (String × A)) (k : String)
    (v : A) : assocGet (assocSet m k v) k = some v := by
  induction m with
  | nil => simp [assocSet, assocGet]
  | cons kv rest ih =>
    by_cases h : kv.1 = k
    · simp [assocSet, assocGet, h]
    · simpa [assocSet, assocGet, h] using ih

theorem AutomergeModelDB.applyChanges_seen
    (d : AutomergeModelDB.AmDocSt) (cs : AutomergeModelDB.ChangeSet) :
    cs.csId ∈ (AutomergeModelDB.applyChanges d cs).1.seen := by
  by_cases h : cs.csId ∈ d.seen
  · simp [AutomergeModelDB.applyChanges, h]
  · simp [AutomergeModelDB.applyChanges, h]

theorem AutomergeModelDB.applyChanges_of_seen
    (d : AutomergeModelDB.AmDocSt) (cs : AutomergeModelDB.ChangeSet)
    (h : cs.csId ∈ d.seen) :
    AutomergeModelDB.applyChanges d cs = (d, false) := by
  simp [AutomergeModelDB.applyChanges, h]

theorem AutomergeModelDB.ensureUsers_seen (d : AutomergeModelDB.AmDocSt) :
    (AutomergeModelDB.ensureUsers d).seen = d.seen := by
  simp only [AutomergeModelDB.ensureUsers]
  split <;> rfl

theorem AutomergeModelDB.ensureUserEntry_seen
    (d : AutomergeModelDB.AmDocSt) (a : String) :
    (AutomergeModelDB.ensureUserEntry d a).seen = d.seen := by
  simp only [AutomergeModelDB.ensureUserEntry]
  split <;> rfl

theorem AutomergeModelDB.ensureUsers_users_truthy
    (d : AutomergeModelDB.AmDocSt) :
    AutomergeModelDB.docTruthy (AutomergeModelDB.ensureUsers d).tree "users" =
      true := by
  by_cases h : AutomergeModelDB.docTruthy d.tree "users" = true
  · simpa [AutomergeModelDB.ensureUsers, h] using h
  · unfold AutomergeModelDB.ensureUsers
    rw [if_neg h]
    simp [AutomergeModelDB.amChange, AutomergeModelDB.docTruthy,
      assocGet_assocSet, AutomergeModelDB.DVal.truthy]

theorem AutomergeModelDB.ensureUserEntry_users_truthy
    (d : AutomergeModelDB.AmDocSt) (a : String)
    (h : AutomergeModelDB.docTruthy d.tree "users" = true) :
    AutomergeModelDB.docTruthy
      (AutomergeModelDB.ensureUserEntry d a).tree "users" = true := by
  by_cases he : AutomergeModelDB.userEntryTruthy d.tree a = true
  · simpa [AutomergeModelDB.ensureUserEntry, he] using h
  · cases hu : assocGet d.tree "users" with
    | none =>
      simpa [AutomergeModelDB.ensureUserEntry, he, AutomergeModelDB.amChange,
        AutomergeModelDB.setUserKey, hu] using h
    | some dv =>
      cases dv with
      | prim p =>
        simpa [AutomergeModelDB.ensureUserEntry, he, AutomergeModelDB.amChange,
          AutomergeModelDB.setUserKey, hu] using h
      | obj kvs =>
        simp [AutomergeModelDB.ensureUserEntry, he, AutomergeModelDB.amChange,
          AutomergeModelDB.setUserKey, hu, AutomergeModelDB.docTruthy,
          assocGet_assocSet, AutomergeModelDB.DVal.truthy]

theorem AutomergeModelDB.ensureUsers_of_truthy
    (d : AutomergeModelDB.AmDocSt)
    (h : AutomergeModelDB.docTruthy d.tree "users" = true) :
    AutomergeModelDB.ensureUsers d = d := by
  simp [AutomergeModelDB.ensureUsers, h]

theorem AutomergeModelDB.ensureUserEntry_idem
    (d : AutomergeModelDB.AmDocSt) (a : String) :
    AutomergeModelDB.ensureUserEntry
        (AutomergeModelDB.ensureUserEntry d a) a =
      AutomergeModelDB.ensureUserEntry d a := by
  by_cases h : AutomergeModelDB.userEntryTruthy d.tree a = true
  · simp [AutomergeModelDB.ensureUserEntry, h]
  · cases hu : assocGet d.tree "users" with
    | none =>
      have hsk : AutomergeModelDB.setUserKey d.tree a = d.tree := by
        simp [AutomergeModelDB.setUserKey, hu]
      simp [AutomergeModelDB.ensureUserEntry, h, AutomergeModelDB.amChange, hsk]
    | some dv =>
      cases dv with
      | prim p =>
        have hsk : AutomergeModelDB.setUserKey d.tree a = d.tree := by
          simp [AutomergeModelDB.setUserKey, hu]
        simp [AutomergeModelDB.ensureUserEntry, h, AutomergeModelDB.amChange, hsk]
      | obj kvs =>
        have hsk : AutomergeModelDB.setUserKey d.tree a =
            assocSet d.tree "users"
              (.obj (assocSet kvs a (.vBool true))) := by
          simp [AutomergeModelDB.setUserKey, hu]
        have htr : AutomergeModelDB.userEntryTruthy
            (assocSet d.tree "users"
              (.obj (assocSet kvs a (.vBool true)))) a = true := by
          simp [AutomergeModelDB.userEntryTruthy, assocGet_assocSet,
            JSVal.truthy]
        simp [AutomergeModelDB.ensureUserEntry, h, AutomergeModelDB.amChange,
          hsk, htr]

theorem AutomergeModelDB.addCollaborators_cons (c : List String)
    (k : String) (rest : List String) :
    AutomergeModelDB.addCollaborators c (k :: rest) =
      AutomergeModelDB.addCollaborators (if k ∈ c then c else c ++ [k])
        rest := rfl

theorem AutomergeModelDB.addCollaborators_mono (ks : List String) :
    ∀ (c : List String) (x : String), x ∈ c →
      x ∈ AutomergeModelDB.addCollaborators c ks := by
  induction ks with
  | nil =>
    intro c x h
    simpa [AutomergeModelDB.addCollaborators] using h
  | cons k rest ih =>
    intro c x h
    rw [AutomergeModelDB.addCollaborators_cons]
    by_cases hk : k ∈ c
    · rw [if_pos hk]
      exact ih c x h
    · rw [if_neg hk]
      exact ih (c ++ [k]) x (List.mem_append_left _ h)

theorem AutomergeModelDB.addCollaborators_mem (ks : List String) :
    ∀ (c : List String) (x : String), x ∈ ks →
      x ∈ AutomergeModelDB.addCollaborators c ks := by
  induction ks with
  | nil =>
    intro c x h
    cases h
  | cons k rest ih =>
    intro c x h
    rw [AutomergeModelDB.addCollaborators_cons]
    rcases List.mem_cons.mp h with rfl | hx
    · by_cases hk : x ∈ c
      · rw [if_pos hk]
        exact AutomergeModelDB.addCollaborators_mono rest c x hk
      · rw [if_neg hk]
        exact AutomergeModelDB.addCollaborators_mono rest _ x (by simp)
    · by_cases hk : k ∈ c
      · rw [if_pos hk]
        exact ih c x hx
      · rw [if_neg hk]
        exact ih _ x hx

theorem AutomergeModelDB.addCollaborators_of_subset (ks : List String) :
    ∀ (c : List String), (∀ x ∈ ks, x ∈ c) →
      AutomergeModelDB.addCollaborators c ks = c := by
  induction ks with
  | nil =>
    intro c _
    rfl
  | cons k rest ih =>
    intro c h
    rw [AutomergeModelDB.addCollaborators_cons, if_pos (h k (by simp))]
    exact ih c (fun x hx => h x (by simp [hx]))

theorem AutomergeModelDB.addCollaborators_idem (c ks : List String) :
    AutomergeModelDB.addCollaborators
        (AutomergeModelDB.addCollaborators c ks) ks =
      AutomergeModelDB.addCollaborators c ks :=
  AutomergeModelDB.addCollaborators_of_subset ks _
    (fun x hx => AutomergeModelDB.addCollaborators_mem ks c x hx)

/-- C1: merge of remote change-sets through the remote-message merge path
is idempotent.  For every replica state with the gate free and every
decoded change-set, running the message listener twice with the same
change-set yields the same document (tree and causal markers), the same
collaborator registry and the same initialization flag as running it
once, and the second application is a no-op diff. -/
theorem mergeRemote_idempotent :
    ∀ (st : AutomergeModelDB.ModelSt) (cs : AutomergeModelDB.ChangeSet),
      st.lock = true →
      (AutomergeModelDB.onMessage
          (AutomergeModelDB.onMessage st cs).1 cs).1.amDoc =
        (AutomergeModelDB.onMessage st cs).1.amDoc ∧
      (AutomergeModelDB.onMessage
          (AutomergeModelDB.onMessage st cs).1 cs).1.collaborators =
        (AutomergeModelDB.onMessage st cs).1.collaborators ∧
      (AutomergeModelDB.onMessage
          (AutomergeModelDB.onMessage st cs).1 cs).1.inited =
        (AutomergeModelDB.onMessage st cs).1.inited ∧
      (AutomergeModelDB.onMessage
          (AutomergeModelDB.onMessage st cs).1 cs).2 = false := by
  intro st cs hl
  set d3 := AutomergeModelDB.ensureUserEntry
      (AutomergeModelDB.ensureUsers
        (AutomergeModelDB.applyChanges st.amDoc cs).1)
      st.actorId with hd3
  have hstep : AutomergeModelDB.onMessage st cs =
      ({ amDoc := d3,
         collaborators := AutomergeModelDB.addCollaborators st.collaborators
           (AutomergeModelDB.usersKeys d3.tree),
         inited := true, lock := true, actorId := st.actorId,
         frontendActor :=
           if AutomergeModelDB.docTruthy st.amDoc.tree "ownerId" then
             assocGet st.amDoc.tree "ownerId"
           else st.frontendActor },
       (AutomergeModelDB.applyChanges st.amDoc cs).2) := by
    unfold AutomergeModelDB.onMessage
    rw [if_pos hl]
  have hseen : cs.csId ∈ d3.seen := by
    rw [hd3, AutomergeModelDB.ensureUserEntry_seen,
      AutomergeModelDB.ensureUsers_seen]
    exact AutomergeModelDB.applyChanges_seen st.amDoc cs
  have happ2 : AutomergeModelDB.applyChanges d3 cs = (d3, false) :=
    AutomergeModelDB.applyChanges_of_seen d3 cs hseen
  have husers : AutomergeModelDB.docTruthy d3.tree "users" = true := by
    rw [hd3]
    exact AutomergeModelDB.ensureUserEntry_users_truthy _ _
      (AutomergeModelDB.ensureUsers_users_truthy _)
  have hens : AutomergeModelDB.ensureUsers d3 = d3 :=
    AutomergeModelDB.ensureUsers_of_truthy d3 husers
  have hentry : AutomergeModelDB.ensureUserEntry d3 st.actorId = d3 := by
    rw [hd3]
    exact AutomergeModelDB.ensureUserEntry_idem _ _
  rw [hstep]
  unfold AutomergeModelDB.onMessage
  rw [if_pos rfl]
  refine ⟨?_, ?_, ?_, ?_⟩ <;>
    simp [happ2, hens, hentry, AutomergeModelDB.addCollaborators_idem]

/-- The concrete replica and change-set used by the C1 witness: a fresh
replica (`me`, gate free) and the change-set with causal marker 7 that
registers user `bob`. -/
def witnessReplica : AutomergeModelDB.ModelSt :=
  AutomergeModelDB.ModelSt.mk (AutomergeModelDB.AmDocSt.mk [] []) ["me"]
    false true "me" none

def witnessChangeSet : AutomergeModelDB.ChangeSet :=
  AutomergeModelDB.ChangeSet.mk 7
    [("users", AutomergeModelDB.DVal.obj [("bob", JSVal.vBool true)])]

/-- C1 witness: applying the witness change-set twice to the fresh
replica — the second application is a no-op diff and leaves the document
unchanged. -/
theorem mergeRemote_idempotent_witness :
    witnessReplica.lock = true ∧
    (AutomergeModelDB.onMessage
        (AutomergeModelDB.onMessage witnessReplica witnessChangeSet).1
        witnessChangeSet).1.amDoc =
      (AutomergeModelDB.onMessage witnessReplica witnessChangeSet).1.amDoc ∧
    (AutomergeModelDB.onMessage
        (AutomergeModelDB.onMessage witnessReplica witnessChangeSet).1
        witnessChangeSet).2 = false :=
  ⟨rfl,
   (mergeRemote_idempotent witnessReplica witnessChangeSet rfl).1,
   (mergeRemote_idempotent witnessReplica witnessChangeSet rfl).2.2.2⟩
